import Mathlib

/-!
Verification of the apm-server request admission and streaming-batch intake
pipeline (`src/beater`), shallowly embedded in Lean 4.

The embedding mirrors the Go source:
* `serverResponse` and its canned values come from `src/unnamed/part_004`;
* `NDJSONStreamReader.Read`, `handleRawModel`, `readBatch`, the batch loop of
  `(v2Route).handler` and the `Models` table come from `src/beater/v2_handlers.go`
  (first document) and `src/beater/intakev2_handlers.go`;
* `isAuthorized`, `authHandler`, `ipRateLimitHandler`, `corsHandler` come from
  `src/beater/v2_handlers.go` (second document);
* `DecodeJSONData` comes from the `package decoder` document inside
  `src/processor/sourcemap/processor_test.go`;
* the `streamResponse` aggregator comes from the `package beater` document
  inside `src/tests/common_bench.go`.

External collaborators (jsonschema validation, per-type decoders, Go's
standard-library `json.Decoder`, the go-glob matcher, the hashicorp LRU) are
either abstract parameters or small models documented at their definition.
-/

set_option autoImplicit false

namespace ApmServer

/-- A Go `error` value as observed by the intake code: either the `io.EOF`
sentinel or some other error carrying a message. -/
inductive GoErr where
  | eof
  | msg (s : String)
deriving DecidableEq, Repr

/-- `serverResponse` from `src/unnamed/part_004`: the error (as its rendered
message), the HTTP status code, and the monitoring counter name that
distinguishes response kinds. -/
structure serverResponse where
  err : Option String
  code : Nat
  counter : String
deriving DecidableEq, Repr

/-- Go zero value `serverResponse{}` (no error, code 0, nil counter). -/
def serverResponse.zero : serverResponse := ⟨none, 0, ""⟩

/-- `(serverResponse).IsError` from `src/unnamed/part_004`: `code >= 400`. -/
def serverResponse.IsError (s : serverResponse) : Bool := 400 ≤ s.code

/-- `okResponse` from `src/unnamed/part_004`. -/
def okResponse : serverResponse := ⟨none, 200, "response.valid.ok"⟩

/-- `acceptedResponse` from `src/unnamed/part_004`. -/
def acceptedResponse : serverResponse := ⟨none, 202, "response.valid.accepted"⟩

/-- `forbiddenResponse` from `src/unnamed/part_004`; `errors.Wrap` prefixes
the message. -/
def forbiddenResponse (e : String) : serverResponse :=
  ⟨some ("forbidden request: " ++ e), 403, "response.errors.forbidden"⟩

/-- `unauthorizedResponse` from `src/unnamed/part_004`. -/
def unauthorizedResponse : serverResponse :=
  ⟨some "invalid token", 401, "response.errors.unauthorized"⟩

/-- `cannotDecodeResponse` from `src/unnamed/part_004`. -/
def cannotDecodeResponse (e : String) : serverResponse :=
  ⟨some ("data decoding error: " ++ e), 400, "response.errors.decode"⟩

/-- `cannotValidateResponse` from `src/unnamed/part_004`. -/
def cannotValidateResponse (e : String) : serverResponse :=
  ⟨some ("data validation error: " ++ e), 400, "response.errors.validate"⟩

/-- `rateLimitedResponse` from `src/unnamed/part_004`. -/
def rateLimitedResponse : serverResponse :=
  ⟨some "too many requests", 429, "response.errors.ratelimit"⟩

/-- `supportedHeaders` from `src/unnamed/part_004`. -/
def supportedHeaders : String := "Content-Type, Content-Encoding, Accept"

/-- `supportedMethods` from `src/unnamed/part_004`. -/
def supportedMethods : String := "POST, OPTIONS"

/-- `rateLimitCacheSize` from `src/unnamed/part_004`. -/
def rateLimitCacheSize : Nat := 1000

/-- `rateLimitBurstMultiplier` from `src/unnamed/part_004`. -/
def rateLimitBurstMultiplier : Nat := 2

/-- `batchSize` from `src/beater/v2_handlers.go` / `intakev2_handlers.go`. -/
def batchSize : Nat := 20

/-- A decoded JSON object (Go `map[string]interface{}`), as an association
list from top-level keys to values of an abstract value type `V`. -/
abbrev RawDoc (V : Type) := List (String × V)

/-- Go map lookup `raw[key]`: first binding of `key` in the document. -/
def lookupKey {V : Type} (d : RawDoc V) (k : String) : Option V :=
  (d.find? (fun p => p.1 = k)).map (fun p => p.2)

/-- `bufio.Reader.ReadBytes('\n')` over the remaining byte stream: returns the
bytes up to and including the first newline, a flag that is `true` exactly when
the stream ended before a newline was found (Go returns `io.EOF` then), and the
unread rest of the stream. -/
def readBytesNewline : List Char → List Char × Bool × List Char
  | [] => ([], true, [])
  | c :: rest =>
    if c = '\n' then ([c], false, rest)
    else
      let r := readBytesNewline rest
      (c :: r.1, r.2.1, r.2.2)

/-- The type of one-buffer JSON object decoders. The stream reader is stated
parametrically in such a decoder; the source instantiates it with
`decoder.DecodeJSONData` (translated below as `DecodeJSONData`) over Go's
standard-library `json.Decoder`, which fails with the bare `io.EOF` sentinel
on input holding no JSON value. -/
abbrev JSONDecoder (V : Type) := List Char → Except GoErr (RawDoc V)

/-- Go `err.Error()`: the `io.EOF` sentinel renders as "EOF". -/
def GoErr.errString : GoErr → String
  | GoErr.eof => "EOF"
  | GoErr.msg s => s

/-- `DecodeJSONData` from the `package decoder` document in
`src/processor/sourcemap/processor_test.go` lines 202-211: decode one JSON
object with `json.Decoder` (`parse`, the external standard library), wrapping
any failure as `errors.Wrap(err, "data read error")`. The wrapped error is
never the bare `io.EOF` sentinel, so a failed decode — including the empty
buffer of an exhausted stream, where `json.Decoder` yields `io.EOF` — is a
non-EOF error to every caller. -/
def DecodeJSONData {V : Type} (parse : JSONDecoder V) : JSONDecoder V := fun buf =>
  match parse buf with
  | Except.error e => Except.error (GoErr.msg ("data read error: " ++ e.errString))
  | Except.ok v => Except.ok v

/-- `(NDJSONStreamReader).Read` from `src/beater/v2_handlers.go` lines 36-49:
read one newline-delimited chunk, decode it as a JSON object, and return
`(decoded, readErr)` where `readErr` may be `io.EOF` alongside a valid final
document. Also returns the advanced stream. -/
def NDJSONStreamReader.Read {V : Type} (dec : JSONDecoder V) (stream : List Char) :
    (Option (RawDoc V) × Option GoErr) × List Char :=
  let r := readBytesNewline stream
  match dec r.1 with
  | .error e => ((none, some e), r.2.2)
  | .ok d => ((some d, if r.2.1 then some GoErr.eof else none), r.2.2)

/-- One entry of the `Models` table from `src/beater/v2_handlers.go` lines
65-90: a record-type key together with its external schema validator
(`validation.Validate` result: `none` means valid, `some e` is the error
message) and its external model decoder (Go `(Transformable, error)` pair). -/
structure ModelEntry (V T : Type) where
  key : String
  schema : V → Option String
  modelDecoder : V → Option T × Option String

/-- The external schema/decoder collaborators for the four v2 record types. -/
structure ExternalModels (V T : Type) where
  transactionSchema : V → Option String
  transactionDecode : V → Option T × Option String
  spanSchema : V → Option String
  spanDecode : V → Option T × Option String
  metricSchema : V → Option String
  metricDecode : V → Option T × Option String
  errorSchema : V → Option String
  errorDecode : V → Option T × Option String

/-- The `Models` table from `src/beater/v2_handlers.go` lines 65-90, in source
order: transaction, span, metric, error. -/
def Models {V T : Type} (E : ExternalModels V T) : List (ModelEntry V T) :=
  [⟨"transaction", E.transactionSchema, E.transactionDecode⟩,
   ⟨"span", E.spanSchema, E.spanDecode⟩,
   ⟨"metric", E.metricSchema, E.metricDecode⟩,
   ⟨"error", E.errorSchema, E.errorDecode⟩]

/-- `(v2Route).handleRawModel` from `src/beater/v2_handlers.go` lines 93-109:
walk the `Models` table; on the first entry whose key is present, validate the
value against the schema (validation failure → `cannotValidateResponse`), then
decode it (decode failure → `cannotDecodeResponse`); if no entry matches,
fail validation with "did not recognize object type". -/
def handleRawModel {V T : Type} :
    List (ModelEntry V T) → RawDoc V → Option T × serverResponse
  | [], _ => (none, cannotValidateResponse "did not recognize object type")
  | m :: rest, rawModel =>
    match lookupKey rawModel m.key with
    | some entry =>
      match m.schema entry with
      | some e => (none, cannotValidateResponse e)
      | none =>
        let r := m.modelDecoder entry
        match r.2 with
        | some e => (r.1, cannotDecodeResponse e)
        | none => (r.1, serverResponse.zero)
    | none => handleRawModel rest rawModel

/-- The body of one `for` loop of `(v2Route).readBatch`
(`src/beater/v2_handlers.go` lines 113-134), unrolled on the remaining
iteration count (`batchSize - i`) with the accumulated slice `acc`.
`acc` models the Go slice `eventables := []transform.Eventable{}`, which is
non-nil even when empty; a `none` result models returning the nil slice.
Result: `((slice, serverResponse, atEOF), advanced stream)`. -/
def readBatchLoop {V T : Type} (models : List (ModelEntry V T)) (dec : JSONDecoder V) :
    Nat → List Char → List (Option T) →
    (Option (List (Option T)) × serverResponse × Bool) × List Char
  | 0, s, acc => ((some acc, serverResponse.zero, false), s)
  | n + 1, s, acc =>
    let rd := NDJSONStreamReader.Read dec s
    match rd.1.2 with
    | some (GoErr.msg e) => ((none, cannotDecodeResponse e, false), rd.2)
    | some GoErr.eof =>
      match rd.1.1 with
      | none => ((some acc, serverResponse.zero, true), rd.2)
      | some d =>
        let hr := handleRawModel models d
        if hr.2.IsError then ((none, hr.2, false), rd.2)
        else ((some (acc ++ [hr.1]), serverResponse.zero, true), rd.2)
    | none =>
      match rd.1.1 with
      | none => readBatchLoop models dec n rd.2 acc
      | some d =>
        let hr := handleRawModel models d
        if hr.2.IsError then ((none, hr.2, false), rd.2)
        else readBatchLoop models dec n rd.2 (acc ++ [hr.1])

/-- `(v2Route).readBatch` from `src/beater/v2_handlers.go` lines 113-134:
read up to `bs` objects from the ndjson stream, returning the slice of decoded
records (`none` = Go nil slice on a per-document failure), a `serverResponse`,
and a flag set when the reader hit `io.EOF`. -/
def readBatch {V T : Type} (models : List (ModelEntry V T)) (dec : JSONDecoder V)
    (bs : Nat) (s : List Char) :
    (Option (List (Option T)) × serverResponse × Bool) × List Char :=
  readBatchLoop models dec bs s []

/-- The batch loop at the tail of `(v2Route).handler`
(`src/beater/v2_handlers.go` lines 190-207): repeatedly `readBatch`; when the
returned slice is non-nil, `report` it to the publishing queue (modelled by
appending the payload to `reports`); on an error response return it; on EOF
break and return `acceptedResponse`. Fuel bounds the number of iterations;
`none` means the fuel ran out before the Go loop terminated. -/
def handlerBatchLoop {V T : Type} (models : List (ModelEntry V T)) (dec : JSONDecoder V) :
    Nat → List Char → List (List (Option T)) →
    Option (serverResponse × List (List (Option T)))
  | 0, _, _ => none
  | fuel + 1, s, reports =>
    let rb := readBatch models dec batchSize s
    let reports1 := match rb.1.1 with
      | some b => reports ++ [b]
      | none => reports
    if rb.1.2.1.IsError then some (rb.1.2.1, reports1)
    else if rb.1.2.2 then some (acceptedResponse, reports1)
    else handlerBatchLoop models dec fuel rb.2 reports1

/-- Go `req.Header.Get(name)`: the empty string when the header is absent. -/
def headerGet (h : Option String) : String := h.getD ""

/-- Go `strings.Split(s, " ")`: split on every single space; the empty string
splits to `[""]`. -/
def splitOnSpace : List Char → List (List Char)
  | [] => [[]]
  | c :: rest =>
    if c = ' ' then [] :: splitOnSpace rest
    else
      match splitOnSpace rest with
      | [] => [[c]]
      | g :: gs => (c :: g) :: gs

/-- `isAuthorized` from `src/beater/v2_handlers.go` lines 427-438: an empty
configured token disables the check; otherwise the `Authorization` header must
split on spaces into exactly `["Bearer", token]`, the token compared with
`subtle.ConstantTimeCompare` (semantically: byte equality). -/
def isAuthorized (authHeader : String) (secretToken : String) : Bool :=
  if secretToken = "" then true
  else
    match splitOnSpace authHeader.toList with
    | [p0, p1] => p0 = "Bearer".toList && p1 = secretToken.toList
    | _ => false

/-- `authHandler` from `src/beater/v2_handlers.go` lines 414-422: `none` means
the inner handler is invoked; `some resp` means the request is rejected with
`resp` and the inner handler never runs. -/
def authHandler (secretToken : String) (authHeader : String) : Option serverResponse :=
  if isAuthorized authHeader secretToken then none else some unauthorizedResponse

/-- Modelled from the spec: the external glob matcher
(`github.com/ryanuber/go-glob`, an external dependency) used for the CORS
origin allow-list; `*` matches any (possibly empty) substring. -/
def globChars : List Char → List Char → Bool
  | [], s => s.isEmpty
  | '*' :: p, [] => globChars p []
  | '*' :: p, c :: s => globChars p (c :: s) || globChars ('*' :: p) s
  | _ :: _, [] => false
  | c :: p, c2 :: s => c = c2 && globChars p s
termination_by p s => (s.length, p.length)

/-- `glob.Glob(pattern, subject)` on strings. -/
def globMatch (pattern subject : String) : Bool :=
  globChars pattern.toList subject.toList

/-- The observable outcome of `corsHandler` on one request: the response
headers it set (in order), the response it sent itself (if any), and whether
the inner handler was invoked. -/
structure CorsResult where
  headers : List (String × String)
  sentStatus : Option serverResponse
  forwarded : Bool
deriving DecidableEq, Repr

/-- The `isAllowed` closure inside `corsHandler`
(`src/beater/v2_handlers.go` lines 442-449). -/
def isAllowedOrigin (allowedOrigins : List String) (origin : String) : Bool :=
  allowedOrigins.any (fun allowed => globMatch allowed origin)

/-- `corsHandler` from `src/beater/v2_handlers.go` lines 440-487: `OPTIONS`
requests always get a 200 with the preflight headers (the allow-origin echo
only for an allowed origin); other requests are forwarded with the origin
echoed when allowed, and rejected with 403 otherwise. -/
def corsHandler (allowedOrigins : List String) (method origin : String) : CorsResult :=
  let validOrigin := isAllowedOrigin allowedOrigins origin
  if method = "OPTIONS" then
    { headers :=
        (if validOrigin then [("Access-Control-Allow-Origin", origin)] else []) ++
        [("Access-Control-Max-Age", "3600"),
         ("Vary", "Origin"),
         ("Access-Control-Allow-Methods", supportedMethods),
         ("Access-Control-Allow-Headers", supportedHeaders),
         ("Content-Length", "0")],
      sentStatus := some okResponse,
      forwarded := false }
  else if validOrigin then
    { headers := [("Access-Control-Allow-Origin", origin)],
      sentStatus := none,
      forwarded := true }
  else
    { headers := [],
      sentStatus := some (forbiddenResponse ("origin: '" ++ origin ++ "' is not allowed")),
      forwarded := false }

/-- The parameters `rate.NewLimiter(rate.Limit(rateLimit), rateLimit*rateLimitBurstMultiplier)`
of the token bucket created in `ipRateLimitHandler`
(`src/beater/v2_handlers.go` line 399). The token-consuming `Allow()` call is
time-dependent and abstracted as a parameter where needed. -/
structure RateLimiter where
  limit : Nat
  burst : Nat
deriving DecidableEq, Repr

/-- Modelled from the spec: the bounded LRU cache (`hashicorp/golang-lru`, an
external dependency) that holds one rate-limiter bucket per source IP.
Entries are kept most-recent-first; `add` inserts at the front and truncates
to the capacity. Recency bookkeeping on reads is not modelled (no claim
depends on the eviction order). -/
structure LRUCache (V : Type) where
  cap : Nat
  entries : List (String × V)

/-- `cache.Contains(key)`. -/
def LRUCache.contains {V : Type} (c : LRUCache V) (k : String) : Bool :=
  c.entries.any (fun p => p.1 = k)

/-- `cache.Add(key, value)`: insert at the front, evict beyond capacity. -/
def LRUCache.add {V : Type} (c : LRUCache V) (k : String) (v : V) : LRUCache V :=
  ⟨c.cap, ((k, v) :: c.entries.filter (fun p => ¬ p.1 = k)).take c.cap⟩

/-- `cache.Get(key)` as a pure lookup of the stored value. -/
def LRUCache.lookup {V : Type} (c : LRUCache V) (k : String) : Option V :=
  (c.entries.find? (fun p => p.1 = k)).map (fun p => p.2)

/-- The `deny` closure of `ipRateLimitHandler`
(`src/beater/v2_handlers.go` lines 397-403): create the bucket on first sight
of the IP, then consult its `Allow()` outcome (`allowFn`). Returns the deny
decision and the updated cache; `none` models the nil-limiter dereference Go
would crash on (impossible for a positive capacity). -/
def ipRateLimitDeny (rateLimit : Nat) (allowFn : RateLimiter → Bool)
    (cache : LRUCache RateLimiter) (ip : String) :
    Option (Bool × LRUCache RateLimiter) :=
  let cache1 := if cache.contains ip then cache
    else cache.add ip ⟨rateLimit, rateLimit * rateLimitBurstMultiplier⟩
  match cache1.lookup ip with
  | some lim => some (!(allowFn lim), cache1)
  | none => none

/-- `ipRateLimitHandler` from `src/beater/v2_handlers.go` lines 394-412, per
request: on deny, send `rateLimitedResponse` and do not forward (`some resp`);
otherwise forward to the inner handler (`none`). -/
def ipRateLimitHandler (rateLimit : Nat) (allowFn : RateLimiter → Bool)
    (cache : LRUCache RateLimiter) (ip : String) :
    Option (Option serverResponse × LRUCache RateLimiter) :=
  (ipRateLimitDeny rateLimit allowFn cache ip).map
    (fun r => (if r.1 then some rateLimitedResponse else none, r.2))

/-- `streamErrorType` from the `package beater` document in
`src/tests/common_bench.go` lines 300-311. -/
abbrev streamErrorType := String

/-- `queueFullErr` from `src/tests/common_bench.go`. -/
def queueFullErr : streamErrorType := "ERR_QUEUE_FULL"

/-- `processingTimeoutErr` from `src/tests/common_bench.go`. -/
def processingTimeoutErr : streamErrorType := "ERR_PROCESSING_TIMEOUT"

/-- `schemaValidationErr` from `src/tests/common_bench.go`. -/
def schemaValidationErr : streamErrorType := "ERR_SCHEMA_VALIDATION"

/-- `invalidJSONErr` from `src/tests/common_bench.go`. -/
def invalidJSONErr : streamErrorType := "ERR_INVALID_JSON"

/-- `shuttingDownErr` from `src/tests/common_bench.go`. -/
def shuttingDownErr : streamErrorType := "ERR_SHUTTING_DOWN"

/-- `invalidContentTypeErr` from `src/tests/common_bench.go`. -/
def invalidContentTypeErr : streamErrorType := "ERR_CONTENT_TYPE"

/-- `validationErrorsLimit` from `src/tests/common_bench.go` line 310. -/
def validationErrorsLimit : Nat := 5

/-- `standardMessages` from `src/tests/common_bench.go` lines 313-320, as the
Go map lookup (absent keys give the zero value ""). -/
def standardMessages (t : streamErrorType) : String :=
  if t = queueFullErr then "queue is full"
  else if t = processingTimeoutErr then "timeout while waiting to process request"
  else if t = schemaValidationErr then "validation error"
  else if t = invalidJSONErr then "invalid JSON"
  else if t = shuttingDownErr then "server is shutting down"
  else if t = invalidContentTypeErr then "invalid content-type. Expected 'application/x-ndjson'"
  else ""

/-- `ValidationError` from `src/tests/common_bench.go` lines 340-343: one
deduplicated sample, an error text with its offending document. -/
structure ValidationError where
  Error : String
  OffendingEvent : String
deriving DecidableEq, Repr

/-- `errorDetails` from `src/tests/common_bench.go` lines 330-338: a per-kind
tally and message, the sample documents (a Go slice whose nil state gates
initialization, hence `Option`), and the `errorsMap` dedup set (a Go
`map[string]struct{}`, modelled as its key list). -/
structure errorDetails where
  Count : Int
  Message : String
  Documents : Option (List ValidationError)
  errorsMap : List String
deriving DecidableEq, Repr

/-- `streamResponse` from `src/tests/common_bench.go` lines 322-328: the
per-request response aggregator. `Errors` is a Go map modelled as an
association list (its nil state reads like the empty map, so the source's
lazy `make` is representation-only). -/
structure streamResponse where
  Accepted : Int
  Invalid : Int
  Dropped : Int
  Errors : List (streamErrorType × errorDetails)
deriving DecidableEq, Repr

/-- The Go zero value `streamResponse{}` a request starts from. -/
def streamResponse.zero : streamResponse := ⟨0, 0, 0, []⟩

/-- Go map read with ok flag: `details, ok = s.Errors[errType]`. -/
def errorsLookup (l : List (streamErrorType × errorDetails)) (k : streamErrorType) :
    Option errorDetails :=
  (l.find? (fun p => p.1 = k)).map (fun p => p.2)

/-- Go map assignment `s.Errors[k] = v`: replace the binding if present,
insert otherwise. -/
def errorsStore (l : List (streamErrorType × errorDetails)) (k : streamErrorType)
    (v : errorDetails) : List (streamErrorType × errorDetails) :=
  if l.any (fun p => p.1 = k) then l.map (fun p => if p.1 = k then (k, v) else p)
  else l ++ [(k, v)]

/-- `(*streamResponse).AddError` from `src/tests/common_bench.go` lines
345-362: increment a kind's tally, creating the entry on first use with its
standard message (and nil documents/dedup map). -/
def streamResponse.AddError (s : streamResponse) (errType : streamErrorType)
    (count : Int) : streamResponse :=
  match errorsLookup s.Errors errType with
  | none =>
    { s with Errors := errorsStore s.Errors errType ⟨count, standardMessages errType, none, []⟩ }
  | some details =>
    { s with Errors := errorsStore s.Errors errType { details with Count := details.Count + count } }

/-- `(*streamResponse).ValidationError` from `src/tests/common_bench.go`
lines 419-439: ensure the schema-validation entry exists (`AddError` with
count 0), initialize its documents/dedup map when still nil, and append one
`(err, offendingDocument)` sample only while fewer than
`validationErrorsLimit` documents are stored and no sample with the same
error text exists (the Go zero value stands in for the map read, as in Go). -/
def streamResponse.ValidationError (s : streamResponse) (err offendingDocument : String) :
    streamResponse :=
  let s1 := s.AddError schemaValidationErr 0
  let ed0 := (errorsLookup s1.Errors schemaValidationErr).getD ⟨0, "", none, []⟩
  let ed1 := match ed0.Documents with
    | none => { ed0 with Documents := some [], errorsMap := [] }
    | some _ => ed0
  let docs := ed1.Documents.getD []
  if docs.length < validationErrorsLimit then
    if ed1.errorsMap.contains err then s1
    else
      let ed2 := { ed1 with
        Documents := some (docs ++ [⟨err, offendingDocument⟩]),
        errorsMap := ed1.errorsMap ++ [err] }
      { s1 with Errors := errorsStore s1.Errors schemaValidationErr ed2 }
  else s1

/-- The aggregator invariant: every stored error kind holds at most
`validationErrorsLimit` sample documents, no two samples share an error text,
and (the code's own bookkeeping) every stored error text is registered in the
kind's dedup map. -/
def streamResponseWF (s : streamResponse) : Prop :=
  ∀ p ∈ s.Errors,
    (p.2.Documents.getD []).length ≤ validationErrorsLimit ∧
    ((p.2.Documents.getD []).map ValidationError.Error).Nodup ∧
    (∀ d ∈ p.2.Documents.getD [], d.Error ∈ p.2.errorsMap)

/-- Specification-side view of a batch cycle, for order preservation: the raw
documents the stream yields, in stream order, reading at most `n` of them and
stopping at end-of-stream or at a line that fails JSON decoding. -/
def streamDocsSpec {V : Type} (dec : JSONDecoder V) : Nat → List Char → List (RawDoc V)
  | 0, _ => []
  | n + 1, s =>
    let rd := NDJSONStreamReader.Read dec s
    match rd.1.2 with
    | some (GoErr.msg _) => []
    | some GoErr.eof =>
      match rd.1.1 with
      | none => []
      | some d => [d]
    | none =>
      match rd.1.1 with
      | none => streamDocsSpec dec n rd.2
      | some d => d :: streamDocsSpec dec n rd.2

/-- A concrete instance of the external standard-library `json.Decoder`
object parse over a tiny document language, used to run the pipeline on
concrete streams. The line `t` parses to `{"transaction": 0}`, `u` to
`{"transaction": 5}`, `q` to `{"span": 1}`, `x` to `{"bogus": 7}`; the line
`bad` fails to parse; input holding no JSON value (empty, or a bare newline)
fails with the bare `io.EOF` sentinel, as Go's `json.Decoder` does. -/
def jsonParseTest : JSONDecoder Nat := fun buf =>
  let line := if buf.getLast? = some '\n' then buf.dropLast else buf
  if line = [] then .error GoErr.eof
  else if line = ['t'] then .ok [("transaction", 0)]
  else if line = ['u'] then .ok [("transaction", 5)]
  else if line = ['q'] then .ok [("span", 1)]
  else if line = ['x'] then .ok [("bogus", 7)]
  else .error (GoErr.msg "invalid character")

/-- The source's `DecodeJSONData` over the concrete parse: the decoder the v2
stream reader actually composes with, at a concrete document language. -/
def decTest : JSONDecoder Nat := DecodeJSONData jsonParseTest

/-- Concrete external schemas/decoders for running the dispatcher: the
transaction schema accepts only the value `0` and the span schema only `1`
(anything else fails with a fixed message); decoders succeed. -/
def extTest : ExternalModels Nat Nat where
  transactionSchema := fun v => if v = 0 then none else some "missing required field"
  transactionDecode := fun v => (some v, none)
  spanSchema := fun v => if v = 1 then none else some "missing required field"
  spanDecode := fun v => (some (v + 10), none)
  metricSchema := fun _ => none
  metricDecode := fun v => (some v, none)
  errorSchema := fun _ => none
  errorDecode := fun v => (some v, none)

/-! ## Helper lemmas -/

theorem readBytesNewline_of_not_mem {s : List Char} (h : '\n' ∉ s) :
    readBytesNewline s = (s, true, []) := by
  induction s with
  | nil => rfl
  | cons c rest ih =>
    have hc : ¬ c = '\n' := fun e => h (e ▸ List.mem_cons_self c rest)
    have hr : '\n' ∉ rest := fun e => h (List.mem_cons_of_mem c e)
    simp [readBytesNewline, hc, ih hr]

theorem handleRawModel_skip {V T : Type} (pre rest : List (ModelEntry V T)) (doc : RawDoc V)
    (h : ∀ m2 ∈ pre, lookupKey doc m2.key = none) :
    handleRawModel (pre ++ rest) doc = handleRawModel rest doc := by
  induction pre with
  | nil => rfl
  | cons m pre ih =>
    have hm : lookupKey doc m.key = none := h m (List.mem_cons_self m pre)
    simp only [List.cons_append, handleRawModel, hm]
    exact ih (fun m2 hm2 => h m2 (List.mem_cons_of_mem m hm2))

theorem readBatchLoop_error_none {V T : Type} (models : List (ModelEntry V T))
    (dec : JSONDecoder V) :
    ∀ (n : Nat) (s : List Char) (acc : List (Option T)),
      (readBatchLoop models dec n s acc).1.2.1.IsError = true →
      (readBatchLoop models dec n s acc).1.1 = none := by
  intro n
  induction n with
  | zero =>
    intro s acc h
    simp [readBatchLoop, serverResponse.IsError, serverResponse.zero] at h
  | succ n ih =>
    intro s acc h
    simp only [readBatchLoop] at h ⊢
    rcases hread : NDJSONStreamReader.Read dec s with ⟨⟨d?, e?⟩, s2⟩
    rw [hread] at h
    simp only [serverResponse.IsError, decide_eq_true_eq] at h ⊢
    match e?, d? with
    | some (GoErr.msg e), d? => rfl
    | some GoErr.eof, none =>
      simp [serverResponse.zero] at h
    | some GoErr.eof, some d =>
      dsimp only at h ⊢
      by_cases hc : 400 ≤ (handleRawModel models d).2.code
      · simp [hc]
      · simp [hc, serverResponse.zero] at h
    | none, none =>
      dsimp only at h
      have := ih s2 acc
      simp only [serverResponse.IsError, decide_eq_true_eq] at this
      exact this h
    | none, some d =>
      dsimp only at h ⊢
      by_cases hc : 400 ≤ (handleRawModel models d).2.code
      · simp [hc]
      · simp only [hc, if_false] at h ⊢
        have := ih s2 (acc ++ [(handleRawModel models d).1])
        simp only [serverResponse.IsError, decide_eq_true_eq] at this
        exact this h

theorem streamDocsSpec_length_le {V : Type} (dec : JSONDecoder V) :
    ∀ (n : Nat) (s : List Char), (streamDocsSpec dec n s).length ≤ n := by
  intro n
  induction n with
  | zero => intro s; simp [streamDocsSpec]
  | succ n ih =>
    intro s
    simp only [streamDocsSpec]
    rcases hread : NDJSONStreamReader.Read dec s with ⟨⟨d?, e?⟩, s2⟩
    match e?, d? with
    | some (GoErr.msg e), d? => simp
    | some GoErr.eof, none => simp
    | some GoErr.eof, some d => simp
    | none, none => exact Nat.le_succ_of_le (ih s2)
    | none, some d => simpa using Nat.succ_le_succ (ih s2)

theorem readBatchLoop_order {V T : Type} (models : List (ModelEntry V T))
    (dec : JSONDecoder V) :
    ∀ (n : Nat) (s : List Char) (acc b : List (Option T)) (resp : serverResponse) (eof : Bool)
      (s2 : List Char),
      readBatchLoop models dec n s acc = ((some b, resp, eof), s2) →
      b = acc ++ (streamDocsSpec dec n s).map (fun d => (handleRawModel models d).1) := by
  intro n
  induction n with
  | zero =>
    intro s acc b resp eof s2 h
    simp only [readBatchLoop, Prod.mk.injEq, Option.some.injEq] at h
    simp [streamDocsSpec, ← h.1.1]
  | succ n ih =>
    intro s acc b resp eof s2 h
    simp only [readBatchLoop, streamDocsSpec] at h ⊢
    rcases hread : NDJSONStreamReader.Read dec s with ⟨⟨d?, e?⟩, s2'⟩
    rw [hread] at h
    simp only [serverResponse.IsError, decide_eq_true_eq] at h
    match e?, d? with
    | some (GoErr.msg e), d? =>
      simp [Prod.mk.injEq] at h
    | some GoErr.eof, none =>
      simp only [Prod.mk.injEq, Option.some.injEq] at h
      simp [← h.1.1]
    | some GoErr.eof, some d =>
      dsimp only at h ⊢
      by_cases hc : 400 ≤ (handleRawModel models d).2.code
      · simp [hc, Prod.mk.injEq] at h
      · simp only [hc, if_false, Prod.mk.injEq, Option.some.injEq] at h
        simp [← h.1.1]
    | none, none =>
      dsimp only at h ⊢
      exact ih s2' acc b resp eof s2 h
    | none, some d =>
      dsimp only at h ⊢
      by_cases hc : 400 ≤ (handleRawModel models d).2.code
      · simp [hc, Prod.mk.injEq] at h
      · simp only [hc, if_false] at h ⊢
        have := ih s2' (acc ++ [(handleRawModel models d).1]) b resp eof s2 h
        simpa using this

theorem readBatchLoop_acc_le {V T : Type} (models : List (ModelEntry V T))
    (dec : JSONDecoder V) (n : Nat) (s : List Char) (acc b : List (Option T))
    (resp : serverResponse) (eof : Bool) (s2 : List Char)
    (h : readBatchLoop models dec n s acc = ((some b, resp, eof), s2)) :
    acc.length ≤ b.length := by
  have horder := readBatchLoop_order models dec n s acc b resp eof s2 h
  rw [horder]
  simp

theorem decodeJSONData_not_eof {V : Type} (parse : JSONDecoder V) (buf : List Char)
    (e : GoErr) (h : DecodeJSONData parse buf = Except.error e) :
    ∃ m, e = GoErr.msg m := by
  unfold DecodeJSONData at h
  cases hp : parse buf with
  | error e2 =>
    rw [hp] at h
    exact ⟨"data read error: " ++ e2.errString, (Except.error.inj h).symm⟩
  | ok v =>
    rw [hp] at h
    cases h

theorem read_decodeJSONData_none {V : Type} (parse : JSONDecoder V) (s : List Char)
    (d? : Option (RawDoc V)) (e? : Option GoErr) (s2 : List Char)
    (h : NDJSONStreamReader.Read (DecodeJSONData parse) s = ((d?, e?), s2))
    (hd : d? = none) : ∃ m, e? = some (GoErr.msg m) := by
  subst hd
  simp only [NDJSONStreamReader.Read] at h
  cases hdec : DecodeJSONData parse (readBytesNewline s).1 with
  | error e =>
    rw [hdec] at h
    simp only [Prod.mk.injEq] at h
    obtain ⟨m, hm⟩ := decodeJSONData_not_eof parse _ e hdec
    exact ⟨m, by rw [← h.1.2, hm]⟩
  | ok d =>
    rw [hdec] at h
    simp at h

theorem mem_errorsStore (l : List (streamErrorType × errorDetails))
    (k : streamErrorType) (v : errorDetails) (q : streamErrorType × errorDetails)
    (hq : q ∈ errorsStore l k v) : q = (k, v) ∨ q ∈ l := by
  unfold errorsStore at hq
  split at hq
  · obtain ⟨p, hp, hpq⟩ := List.mem_map.mp hq
    by_cases hk : p.1 = k
    · rw [if_pos hk] at hpq
      exact Or.inl hpq.symm
    · rw [if_neg hk] at hpq
      exact Or.inr (hpq ▸ hp)
  · rcases List.mem_append.mp hq with h | h
    · exact Or.inr h
    · exact Or.inl (by simpa using h)

theorem errorsLookup_mem (l : List (streamErrorType × errorDetails))
    (k : streamErrorType) (ed : errorDetails) (h : errorsLookup l k = some ed) :
    (k, ed) ∈ l := by
  unfold errorsLookup at h
  cases hf : l.find? (fun p => p.1 = k) with
  | none => rw [hf] at h; cases h
  | some p =>
    rw [hf] at h
    simp at h
    have hm := List.mem_of_find?_eq_some hf
    have hp := List.find?_some hf
    simp only [decide_eq_true_eq] at hp
    have hpe : p = (k, ed) := by
      obtain ⟨p1, p2⟩ := p
      simp only at hp h
      rw [hp, h]
    exact hpe ▸ hm

theorem AddError_wf (s : streamResponse) (errType : streamErrorType) (count : Int)
    (h : streamResponseWF s) : streamResponseWF (s.AddError errType count) := by
  unfold streamResponse.AddError
  cases hlook : errorsLookup s.Errors errType with
  | none =>
    intro p hp
    rcases mem_errorsStore _ _ _ p hp with hpe | hpl
    · rw [hpe]
      exact ⟨by simp, by simp, by simp⟩
    · exact h p hpl
  | some details =>
    intro p hp
    rcases mem_errorsStore _ _ _ p hp with hpe | hpl
    · rw [hpe]
      have hd := h _ (errorsLookup_mem s.Errors errType details hlook)
      exact ⟨hd.1, hd.2.1, hd.2.2⟩
    · exact h p hpl

theorem AddError_counts (s : streamResponse) (errType : streamErrorType) (count : Int) :
    (s.AddError errType count).Accepted = s.Accepted ∧
    (s.AddError errType count).Invalid = s.Invalid ∧
    (s.AddError errType count).Dropped = s.Dropped := by
  unfold streamResponse.AddError
  cases errorsLookup s.Errors errType <;> exact ⟨rfl, rfl, rfl⟩

theorem ValidationError_eq_none (s : streamResponse) (err doc : String)
    (hlook : errorsLookup (s.AddError schemaValidationErr 0).Errors schemaValidationErr = none) :
    s.ValidationError err doc =
      { s.AddError schemaValidationErr 0 with
        Errors := errorsStore (s.AddError schemaValidationErr 0).Errors schemaValidationErr
          ⟨0, "", some [⟨err, doc⟩], [err]⟩ } := by
  simp only [streamResponse.ValidationError]
  rw [hlook]
  rfl

theorem ValidationError_eq_some_none (s : streamResponse) (err doc : String)
    (edx : errorDetails)
    (hlook : errorsLookup (s.AddError schemaValidationErr 0).Errors schemaValidationErr = some edx)
    (hdoc : edx.Documents = none) :
    s.ValidationError err doc =
      { s.AddError schemaValidationErr 0 with
        Errors := errorsStore (s.AddError schemaValidationErr 0).Errors schemaValidationErr
          ⟨edx.Count, edx.Message, some [⟨err, doc⟩], [err]⟩ } := by
  simp only [streamResponse.ValidationError]
  rw [hlook]
  simp only [Option.getD_some]
  rw [hdoc]
  rfl

theorem ValidationError_eq_some_some (s : streamResponse) (err doc : String)
    (edx : errorDetails) (docs0 : List ValidationError)
    (hlook : errorsLookup (s.AddError schemaValidationErr 0).Errors schemaValidationErr = some edx)
    (hdoc : edx.Documents = some docs0) :
    s.ValidationError err doc =
      (if docs0.length < validationErrorsLimit then
        if edx.errorsMap.contains err then s.AddError schemaValidationErr 0
        else
          { s.AddError schemaValidationErr 0 with
            Errors := errorsStore (s.AddError schemaValidationErr 0).Errors schemaValidationErr
              ⟨edx.Count, edx.Message, some (docs0 ++ [⟨err, doc⟩]), edx.errorsMap ++ [err]⟩ }
      else s.AddError schemaValidationErr 0) := by
  simp only [streamResponse.ValidationError]
  rw [hlook]
  simp only [Option.getD_some, hdoc]

theorem ValidationError_wf (s : streamResponse) (err doc : String)
    (h : streamResponseWF s) : streamResponseWF (s.ValidationError err doc) := by
  have h1 : streamResponseWF (s.AddError schemaValidationErr 0) :=
    AddError_wf s schemaValidationErr 0 h
  cases hlook : errorsLookup (s.AddError schemaValidationErr 0).Errors schemaValidationErr with
  | none =>
    rw [ValidationError_eq_none s err doc hlook]
    intro p hp
    rcases mem_errorsStore _ _ _ p hp with hpe | hpl
    · rw [hpe]
      refine ⟨by simp [validationErrorsLimit], by simp, ?_⟩
      intro d hd
      simp only [Option.getD_some, List.mem_singleton] at hd
      rw [hd]
      simp
    · exact h1 p hpl
  | some edx =>
    have hedx := h1 _ (errorsLookup_mem _ _ _ hlook)
    cases hdoc : edx.Documents with
    | none =>
      rw [ValidationError_eq_some_none s err doc edx hlook hdoc]
      intro p hp
      rcases mem_errorsStore _ _ _ p hp with hpe | hpl
      · rw [hpe]
        refine ⟨by simp [validationErrorsLimit], by simp, ?_⟩
        intro d hd
        simp only [Option.getD_some, List.mem_singleton] at hd
        rw [hd]
        simp
      · exact h1 p hpl
    | some docs0 =>
      rw [hdoc] at hedx
      simp only [Option.getD_some] at hedx
      rw [ValidationError_eq_some_some s err doc edx docs0 hlook hdoc]
      by_cases hlen : docs0.length < validationErrorsLimit
      · by_cases hcon : edx.errorsMap.contains err = true
        · rw [if_pos hlen, if_pos hcon]
          exact h1
        · rw [if_pos hlen, if_neg hcon]
          intro p hp
          rcases mem_errorsStore _ _ _ p hp with hpe | hpl
          · rw [hpe]
            have hnotin : err ∉ docs0.map ValidationError.Error := by
              intro hin
              obtain ⟨d, hd, hde⟩ := List.mem_map.mp hin
              have hm := hedx.2.2 d hd
              rw [hde] at hm
              exact hcon (by simpa using hm)
            refine ⟨?_, ?_, ?_⟩
            · simp only [Option.getD_some, List.length_append, List.length_singleton,
                validationErrorsLimit] at hlen ⊢
              omega
            · simp only [Option.getD_some, List.map_append, List.map_cons, List.map_nil]
              rw [List.nodup_append]
              refine ⟨hedx.2.1, List.nodup_singleton err, ?_⟩
              intro x hx hx2
              simp only [List.mem_singleton] at hx2
              rw [hx2] at hx
              exact hnotin hx
            · intro d hd
              simp only [Option.getD_some] at hd
              rcases List.mem_append.mp hd with hd2 | hd2
              · exact List.mem_append_left _ (hedx.2.2 d hd2)
              · simp only [List.mem_singleton] at hd2
                rw [hd2]
                simp
          · exact h1 p hpl
      · rw [if_neg hlen]
        exact h1

theorem ValidationError_counts (s : streamResponse) (err doc : String) :
    (s.ValidationError err doc).Accepted = s.Accepted ∧
    (s.ValidationError err doc).Invalid = s.Invalid ∧
    (s.ValidationError err doc).Dropped = s.Dropped := by
  have hc := AddError_counts s schemaValidationErr 0
  cases hlook : errorsLookup (s.AddError schemaValidationErr 0).Errors schemaValidationErr with
  | none =>
    rw [ValidationError_eq_none s err doc hlook]
    exact hc
  | some edx =>
    cases hdoc : edx.Documents with
    | none =>
      rw [ValidationError_eq_some_none s err doc edx hlook hdoc]
      exact hc
    | some docs0 =>
      rw [ValidationError_eq_some_some s err doc edx docs0 hlook hdoc]
      split
      · split
        · exact hc
        · exact hc
      · exact hc

/-! ## Claim theorems -/

/-- Claim C7: with a non-empty configured secret token, a request without an
`Authorization` header is rejected by `authHandler` with HTTP 401 before the
inner handler runs (the `some`-result short-circuits); with an empty or unset
secret token the authorization check passes regardless of the header. -/
theorem auth_token_gate :
    (∀ token : String, ¬ token = "" →
      authHandler token (headerGet none) = some unauthorizedResponse ∧
      unauthorizedResponse.code = 401) ∧
    (∀ h : Option String, isAuthorized (headerGet h) "" = true ∧
      authHandler "" (headerGet h) = none) := by
  constructor
  · intro token htok
    refine ⟨?_, rfl⟩
    simp only [authHandler, isAuthorized, headerGet, Option.getD]
    rw [if_neg htok]
    rfl
  · intro h
    exact ⟨rfl, rfl⟩

/-- Witness for C7 at a concrete token and headers. -/
theorem auth_token_gate_witness :
    authHandler "secret" (headerGet none) = some unauthorizedResponse ∧
    authHandler "" (headerGet (some "garbage")) = none :=
  ⟨(auth_token_gate.1 "secret" (by decide)).1,
   (auth_token_gate.2 (some "garbage")).2⟩

/-- Claim C6 is false as stated, at concrete inputs: an `OPTIONS` preflight
request from an origin that matches no allow-list glob still receives 200 (not
403), and an allowed non-preflight request does not receive a `Vary: Origin`
header (only preflight responses carry it). -/
theorem cors_claim_counterexample :
    isAllowedOrigin ["*.example.com"] "http://evil.com" = false ∧
    (corsHandler ["*.example.com"] "OPTIONS" "http://evil.com").sentStatus = some okResponse ∧
    ¬ okResponse.code = 403 ∧
    isAllowedOrigin ["*.example.com"] "app.example.com" = true ∧
    (corsHandler ["*.example.com"] "POST" "app.example.com").forwarded = true ∧
    ("Vary", "Origin") ∉ (corsHandler ["*.example.com"] "POST" "app.example.com").headers := by
  refine ⟨?_, ?_, by decide, ?_, ?_, ?_⟩ <;>
    simp [corsHandler, isAllowedOrigin, globMatch, globChars, okResponse]

/-- Claim C6 amended: an `OPTIONS` preflight always receives 200 with no body
plus the max-age/allow-methods/allow-headers preflight headers, with the
request's `Origin` echoed in `Access-Control-Allow-Origin` exactly when it
matches the allow-list (a disallowed origin still gets the 200 but no
`Access-Control-Allow-Origin` header at all); `Vary: Origin` is set on every
preflight response and only there; a non-preflight request from a disallowed
origin receives 403; an allowed non-preflight request is forwarded with
exactly its own `Origin` value echoed in `Access-Control-Allow-Origin` (never
a wildcard) and no `Vary` header. -/
theorem cors_behavior :
    ∀ (allowedOrigins : List String) (method origin : String),
      (method = "OPTIONS" →
        (corsHandler allowedOrigins method origin).sentStatus = some okResponse ∧
        okResponse.code = 200 ∧
        (corsHandler allowedOrigins method origin).forwarded = false ∧
        ("Access-Control-Max-Age", "3600") ∈ (corsHandler allowedOrigins method origin).headers ∧
        ("Access-Control-Allow-Methods", supportedMethods) ∈
          (corsHandler allowedOrigins method origin).headers ∧
        ("Access-Control-Allow-Headers", supportedHeaders) ∈
          (corsHandler allowedOrigins method origin).headers ∧
        ("Content-Length", "0") ∈ (corsHandler allowedOrigins method origin).headers ∧
        (isAllowedOrigin allowedOrigins origin = true →
          ("Access-Control-Allow-Origin", origin) ∈
            (corsHandler allowedOrigins method origin).headers) ∧
        ("Vary", "Origin") ∈ (corsHandler allowedOrigins method origin).headers ∧
        (isAllowedOrigin allowedOrigins origin = false →
          ∀ v : String, ("Access-Control-Allow-Origin", v) ∉
            (corsHandler allowedOrigins method origin).headers)) ∧
      (¬ method = "OPTIONS" → isAllowedOrigin allowedOrigins origin = false →
        (corsHandler allowedOrigins method origin).sentStatus =
          some (forbiddenResponse ("origin: '" ++ origin ++ "' is not allowed")) ∧
        (forbiddenResponse ("origin: '" ++ origin ++ "' is not allowed")).code = 403 ∧
        (corsHandler allowedOrigins method origin).forwarded = false) ∧
      (¬ method = "OPTIONS" → isAllowedOrigin allowedOrigins origin = true →
        (corsHandler allowedOrigins method origin).forwarded = true ∧
        (corsHandler allowedOrigins method origin).headers =
          [("Access-Control-Allow-Origin", origin)] ∧
        (corsHandler allowedOrigins method origin).sentStatus = none) := by
  intro allowedOrigins method origin
  refine ⟨?_, ?_, ?_⟩
  · intro hm
    by_cases hv : isAllowedOrigin allowedOrigins origin = true <;>
      simp +decide [corsHandler, hm, hv, okResponse]
  · intro hm hv
    simp [corsHandler, hm, hv, forbiddenResponse]
  · intro hm hv
    simp [corsHandler, hm, hv]

/-- Witness for C6 (amended) at concrete inputs. -/
theorem cors_behavior_witness :
    (corsHandler ["*"] "OPTIONS" "http://a.com").sentStatus = some okResponse ∧
    (corsHandler ["*"] "POST" "http://a.com").headers =
      [("Access-Control-Allow-Origin", "http://a.com")] ∧
    ("Vary", "Origin") ∈ (corsHandler ["*"] "OPTIONS" "http://a.com").headers ∧
    ("Access-Control-Allow-Origin", "http://evil.com") ∉
      (corsHandler ["*.example.com"] "OPTIONS" "http://evil.com").headers :=
  ⟨((cors_behavior ["*"] "OPTIONS" "http://a.com").1 rfl).1,
   (((cors_behavior ["*"] "POST" "http://a.com").2.2 (by decide)
      (by simp [isAllowedOrigin, globMatch, globChars])).2).1,
   ((cors_behavior ["*"] "OPTIONS" "http://a.com").1 rfl).2.2.2.2.2.2.2.2.1,
   ((cors_behavior ["*.example.com"] "OPTIONS" "http://evil.com").1 rfl).2.2.2.2.2.2.2.2.2
      (by simp [isAllowedOrigin, globMatch, globChars]) "http://evil.com"⟩

/-- Claim C8: on first sight of an IP the rate limiter creates a token bucket
with rate = the configured limit and burst = exactly 2 × that limit, stores it
in the LRU cache bounded at `rateLimitCacheSize` = 1000 entries, and any
request whose bucket denies a token is answered with `rateLimitedResponse`
(HTTP 429) without reaching the inner handler. -/
theorem ip_rate_limit_bucket_lru_429 :
    (∀ (rateLimit : Nat) (allowFn : RateLimiter → Bool) (cache : LRUCache RateLimiter)
      (ip : String),
      cache.cap = rateLimitCacheSize →
      cache.contains ip = false →
      ipRateLimitDeny rateLimit allowFn cache ip =
        some (!(allowFn ⟨rateLimit, rateLimit * rateLimitBurstMultiplier⟩),
          cache.add ip ⟨rateLimit, rateLimit * rateLimitBurstMultiplier⟩) ∧
      (cache.add ip ⟨rateLimit, rateLimit * rateLimitBurstMultiplier⟩).lookup ip =
        some ⟨rateLimit, rateLimit * rateLimitBurstMultiplier⟩ ∧
      (RateLimiter.mk rateLimit (rateLimit * rateLimitBurstMultiplier)).limit = rateLimit ∧
      (RateLimiter.mk rateLimit (rateLimit * rateLimitBurstMultiplier)).burst = 2 * rateLimit ∧
      (cache.add ip ⟨rateLimit, rateLimit * rateLimitBurstMultiplier⟩).entries.length ≤
        rateLimitCacheSize ∧
      rateLimitCacheSize = 1000) ∧
    (∀ (rateLimit : Nat) (allowFn : RateLimiter → Bool) (cache : LRUCache RateLimiter)
      (ip : String) (c2 : LRUCache RateLimiter),
      ipRateLimitDeny rateLimit allowFn cache ip = some (true, c2) →
      ipRateLimitHandler rateLimit allowFn cache ip = some (some rateLimitedResponse, c2) ∧
      rateLimitedResponse.code = 429) := by
  constructor
  · intro rateLimit allowFn cache ip hcap hnew
    have hadd : (cache.add ip ⟨rateLimit, rateLimit * rateLimitBurstMultiplier⟩).lookup ip =
        some ⟨rateLimit, rateLimit * rateLimitBurstMultiplier⟩ := by
      simp only [LRUCache.add, LRUCache.lookup, hcap, rateLimitCacheSize]
      rw [List.take_cons]
      · simp [List.find?_cons_of_pos]
      · exact Nat.succ_le_succ (Nat.zero_le _)
    refine ⟨?_, hadd, rfl, ?_, ?_, rfl⟩
    · simp only [ipRateLimitDeny, hnew, if_false, Bool.false_eq_true, hadd]
    · simp [rateLimitBurstMultiplier, Nat.mul_comm]
    · simp only [LRUCache.add]
      calc (((ip, RateLimiter.mk rateLimit (rateLimit * rateLimitBurstMultiplier)) ::
              cache.entries.filter (fun p => ¬ p.1 = ip)).take cache.cap).length ≤ cache.cap :=
            (List.length_take _ _).le.trans (Nat.min_le_left _ _)
        _ = rateLimitCacheSize := hcap
  · intro rateLimit allowFn cache ip c2 h
    refine ⟨?_, rfl⟩
    simp [ipRateLimitHandler, h]

/-- Witness for C8 at a concrete limit, IP, empty cache and a denying
`Allow()` outcome. -/
theorem ip_rate_limit_bucket_lru_429_witness :
    ipRateLimitHandler 5 (fun _ => false) ⟨rateLimitCacheSize, []⟩ "1.2.3.4" =
      some (some rateLimitedResponse,
        LRUCache.add ⟨rateLimitCacheSize, []⟩ "1.2.3.4" ⟨5, 10⟩) :=
  (ip_rate_limit_bucket_lru_429.2 5 (fun _ => false) ⟨rateLimitCacheSize, []⟩ "1.2.3.4"
    (LRUCache.add ⟨rateLimitCacheSize, []⟩ "1.2.3.4" ⟨5, 10⟩)
    ((ip_rate_limit_bucket_lru_429.1 5 (fun _ => false) ⟨rateLimitCacheSize, []⟩ "1.2.3.4"
      rfl rfl).1)).1

/-- Claim C3: when the remaining stream is a final line with no trailing
newline that decodes to a valid JSON object, `Read` returns that document
together with the `io.EOF` signal, and `readBatch` does not discard it: the
document's record is appended to the accumulated batch, which is returned with
the end-of-stream indication. -/
theorem final_line_document_not_discarded {V T : Type} :
    ∀ (models : List (ModelEntry V T)) (dec : JSONDecoder V) (line : List Char)
      (d : RawDoc V),
      '\n' ∉ line → dec line = Except.ok d →
      NDJSONStreamReader.Read dec line = ((some d, some GoErr.eof), []) ∧
      (∀ (tr : Option T) (resp : serverResponse) (n : Nat) (acc : List (Option T)),
        handleRawModel models d = (tr, resp) → resp.IsError = false →
        readBatchLoop models dec (n + 1) line acc =
          ((some (acc ++ [tr]), serverResponse.zero, true), [])) := by
  intro models dec line d hnl hdec
  have hread : NDJSONStreamReader.Read dec line = ((some d, some GoErr.eof), []) := by
    simp [NDJSONStreamReader.Read, readBytesNewline_of_not_mem hnl, hdec]
  refine ⟨hread, ?_⟩
  intro tr resp n acc hhr hresp
  simp only [readBatchLoop]
  rw [hread]
  simp [hhr, hresp]

/-- Witness for C3: the stream `t` (no trailing newline) under the concrete
decoder yields its document together with end-of-stream, and the record is in
the returned batch. -/
theorem final_line_document_not_discarded_witness :
    NDJSONStreamReader.Read decTest ("t".toList) =
      ((some [("transaction", 0)], some GoErr.eof), []) ∧
    readBatchLoop (Models extTest) decTest 20 ("t".toList) [] =
      ((some [some 0], serverResponse.zero, true), []) :=
  ⟨(final_line_document_not_discarded (Models extTest) decTest ("t".toList)
      [("transaction", 0)] (by decide) rfl).1,
   (final_line_document_not_discarded (Models extTest) decTest ("t".toList)
      [("transaction", 0)] (by decide) rfl).2 (some 0) serverResponse.zero 19 [] rfl rfl⟩

/-- Claim C9: every batch (non-nil slice) produced by `readBatch` at the
source batch size contains at most `batchSize` = 20 records, and the records
appear in the batch in the same order as their source documents appear in the
stream: the batch is exactly the in-order image of the documents the stream
yields under the dispatcher. -/
theorem batch_bounded_and_ordered {V T : Type} :
    ∀ (models : List (ModelEntry V T)) (dec : JSONDecoder V) (s : List Char)
      (b : List (Option T)) (resp : serverResponse) (eof : Bool) (s2 : List Char),
      readBatch models dec batchSize s = ((some b, resp, eof), s2) →
      b.length ≤ batchSize ∧ batchSize = 20 ∧
      b = (streamDocsSpec dec batchSize s).map (fun d => (handleRawModel models d).1) := by
  intro models dec s b resp eof s2 h
  have horder := readBatchLoop_order models dec batchSize s [] b resp eof s2 h
  simp only [List.nil_append] at horder
  refine ⟨?_, rfl, horder⟩
  rw [horder, List.length_map]
  exact streamDocsSpec_length_le dec batchSize s

/-- Witness for C9 on a concrete two-document stream. -/
theorem batch_bounded_and_ordered_witness :
    ([some 0, some 11] : List (Option Nat)).length ≤ batchSize ∧ batchSize = 20 ∧
    ([some 0, some 11] : List (Option Nat)) =
      (streamDocsSpec decTest batchSize ("t\nq".toList)).map
        (fun d => (handleRawModel (Models extTest) d).1) :=
  batch_bounded_and_ordered (Models extTest) decTest ("t\nq".toList)
    [some 0, some 11] serverResponse.zero true [] rfl

/-- Claim C10: when any document within a batch fails validation or decoding,
`readBatch` returns the nil slice — every valid record accumulated earlier in
that batch cycle is discarded — and the handler submits nothing for that
cycle, returning the error response with the reports unchanged. -/
theorem per_document_error_atomic_discard {V T : Type} :
    ∀ (models : List (ModelEntry V T)) (dec : JSONDecoder V),
      (∀ (n : Nat) (s : List Char) (acc : List (Option T)),
        (readBatchLoop models dec n s acc).1.2.1.IsError = true →
        (readBatchLoop models dec n s acc).1.1 = none) ∧
      (∀ (fuel : Nat) (s s2 : List Char) (reports : List (List (Option T)))
        (resp : serverResponse) (eof : Bool),
        readBatch models dec batchSize s = ((none, resp, eof), s2) →
        resp.IsError = true →
        handlerBatchLoop models dec (fuel + 1) s reports = some (resp, reports)) := by
  intro models dec
  refine ⟨readBatchLoop_error_none models dec, ?_⟩
  intro fuel s s2 reports resp eof h hresp
  simp only [handlerBatchLoop]
  rw [h]
  simp [hresp]

/-- Witness for C10: with a validation failure at the second document of a
batch, the first (valid) record is discarded and the handler reports nothing. -/
theorem per_document_error_atomic_discard_witness :
    (readBatchLoop (Models extTest) decTest batchSize ("t\nu\nt\n".toList) []).1.1 = none ∧
    handlerBatchLoop (Models extTest) decTest 4 ("t\nu\nt\n".toList) [] =
      some (cannotValidateResponse "missing required field", []) :=
  ⟨(per_document_error_atomic_discard (Models extTest) decTest).1 batchSize
      ("t\nu\nt\n".toList) [] (by rfl),
   (per_document_error_atomic_discard (Models extTest) decTest).2 3
      ("t\nu\nt\n".toList) ("t\n".toList) []
      (cannotValidateResponse "missing required field") false (by rfl) (by rfl)⟩

/-- Claim C1 is false as stated, at a concrete stream: the second document of
`t\nu\nt` fails schema validation; the handler does not continue with the
third (valid) document but returns the 400 error response for the whole
request with no batch submitted, even though the remaining stream (the final
unterminated line `t`) would have yielded a valid batch. -/
theorem per_document_failure_not_absorbed_cex :
    handlerBatchLoop (Models extTest) decTest 5 ("t\nu\nt".toList) [] =
      some (cannotValidateResponse "missing required field", []) ∧
    (cannotValidateResponse "missing required field").IsError = true ∧
    readBatch (Models extTest) decTest batchSize ("t".toList) =
      ((some [some 0], serverResponse.zero, true), []) := by
  exact ⟨rfl, rfl, rfl⟩

/-- Claim C1 amended: in this code a per-document validation/decode failure IS
fatal to the whole request on the v2 streaming batch path: `readBatch` stops
at the failing document and returns the nil slice with that document's error
response, and the handler returns that error response for the whole request
without reading or processing subsequent documents (there is no per-document
outcome tally). -/
theorem per_document_failure_aborts_stream {V T : Type} :
    ∀ (models : List (ModelEntry V T)) (dec : JSONDecoder V) (s s2 : List Char)
      (d : RawDoc V) (tr : Option T) (resp : serverResponse),
      NDJSONStreamReader.Read dec s = ((some d, none), s2) →
      handleRawModel models d = (tr, resp) →
      resp.IsError = true →
      (∀ (n : Nat) (acc : List (Option T)),
        readBatchLoop models dec (n + 1) s acc = ((none, resp, false), s2)) ∧
      (∀ (fuel : Nat) (reports : List (List (Option T))),
        handlerBatchLoop models dec (fuel + 1) s reports = some (resp, reports)) := by
  intro models dec s s2 d tr resp hread hhr hresp
  have hloop : ∀ (n : Nat) (acc : List (Option T)),
      readBatchLoop models dec (n + 1) s acc = ((none, resp, false), s2) := by
    intro n acc
    simp only [readBatchLoop]
    rw [hread]
    simp [hhr, hresp]
  refine ⟨hloop, ?_⟩
  intro fuel reports
  simp only [handlerBatchLoop]
  rw [show readBatch models dec batchSize s = ((none, resp, false), s2) from hloop 19 []]
  simp [hresp]

/-- Witness for C1 (amended) at a concrete stream whose first document fails
validation. -/
theorem per_document_failure_aborts_stream_witness :
    readBatchLoop (Models extTest) decTest 20 ("u\nt\n".toList) [] =
      ((none, cannotValidateResponse "missing required field", false), "t\n".toList) ∧
    handlerBatchLoop (Models extTest) decTest 4 ("u\nt\n".toList) [] =
      some (cannotValidateResponse "missing required field", []) :=
  ⟨(per_document_failure_aborts_stream (Models extTest) decTest ("u\nt\n".toList)
      ("t\n".toList) [("transaction", 5)] none
      (cannotValidateResponse "missing required field") (by rfl) rfl rfl).1 19 [],
   (per_document_failure_aborts_stream (Models extTest) decTest ("u\nt\n".toList)
      ("t\n".toList) [("transaction", 5)] none
      (cannotValidateResponse "missing required field") (by rfl) rfl rfl).2 3 []⟩

/-- Claim C4: the handler submits a batch to the publishing queue only when
`readBatch` returns a non-nil slice, and with the source decoder
(`DecodeJSONData`, which wraps every decode failure so the empty buffer of an
exhausted stream is a non-EOF error) every such slice is non-empty; an
accumulation cycle that produces zero records — end-of-stream reached exactly
at a batch boundary — returns the nil slice with a decode-error response and
causes no queue submission; a partial non-empty batch produced together with
the end-of-stream signal is still submitted. -/
theorem batch_submitted_only_if_nonempty {V T : Type} :
    ∀ (models : List (ModelEntry V T)) (parse : JSONDecoder V),
      (∀ (n : Nat) (s : List Char) (acc b : List (Option T)) (resp : serverResponse)
        (eof : Bool) (s2 : List Char),
        readBatchLoop models (DecodeJSONData parse) (n + 1) s acc = ((some b, resp, eof), s2) →
        acc.length < b.length) ∧
      (∀ (s : List Char) (b : List (Option T)) (resp : serverResponse) (eof : Bool)
        (s2 : List Char),
        readBatch models (DecodeJSONData parse) batchSize s = ((some b, resp, eof), s2) →
        ¬ b = []) ∧
      (∀ (fuel : Nat) (s s2 : List Char) (reports : List (List (Option T)))
        (b : List (Option T)) (resp : serverResponse) (eof : Bool),
        readBatch models (DecodeJSONData parse) batchSize s = ((some b, resp, eof), s2) →
        resp.IsError = false →
        handlerBatchLoop models (DecodeJSONData parse) (fuel + 1) s reports =
          (if eof then some (acceptedResponse, reports ++ [b])
           else handlerBatchLoop models (DecodeJSONData parse) fuel s2 (reports ++ [b]))) ∧
      (∀ (fuel : Nat) (s s2 : List Char) (reports : List (List (Option T)))
        (resp : serverResponse) (eof : Bool),
        readBatch models (DecodeJSONData parse) batchSize s = ((none, resp, eof), s2) →
        resp.IsError = true →
        handlerBatchLoop models (DecodeJSONData parse) (fuel + 1) s reports =
          some (resp, reports)) ∧
      (parse [] = Except.error GoErr.eof →
        readBatch models (DecodeJSONData parse) batchSize [] =
          ((none, cannotDecodeResponse "data read error: EOF", false), [])) := by
  intro models parse
  have hgrow : ∀ (n : Nat) (s : List Char) (acc b : List (Option T)) (resp : serverResponse)
      (eof : Bool) (s2 : List Char),
      readBatchLoop models (DecodeJSONData parse) (n + 1) s acc = ((some b, resp, eof), s2) →
      acc.length < b.length := by
    intro n s acc b resp eof s2 h
    simp only [readBatchLoop] at h
    rcases hread : NDJSONStreamReader.Read (DecodeJSONData parse) s with ⟨⟨d?, e?⟩, s2'⟩
    rw [hread] at h
    simp only [serverResponse.IsError, decide_eq_true_eq] at h
    match e?, d? with
    | some (GoErr.msg e), d? => simp [Prod.mk.injEq] at h
    | some GoErr.eof, none =>
      obtain ⟨m, hm⟩ := read_decodeJSONData_none parse s none (some GoErr.eof) s2' hread rfl
      cases hm
    | some GoErr.eof, some d =>
      dsimp only at h
      by_cases hc : 400 ≤ (handleRawModel models d).2.code
      · simp [hc, Prod.mk.injEq] at h
      · simp only [hc, if_false, Prod.mk.injEq, Option.some.injEq] at h
        rw [← h.1.1]
        simp
    | none, none =>
      obtain ⟨m, hm⟩ := read_decodeJSONData_none parse s none none s2' hread rfl
      cases hm
    | none, some d =>
      dsimp only at h
      by_cases hc : 400 ≤ (handleRawModel models d).2.code
      · simp [hc, Prod.mk.injEq] at h
      · simp only [hc, if_false] at h
        have := readBatchLoop_acc_le models (DecodeJSONData parse) n s2'
          (acc ++ [(handleRawModel models d).1]) b resp eof s2 h
        simp only [List.length_append, List.length_singleton] at this
        omega
  refine ⟨hgrow, ?_, ?_, ?_, ?_⟩
  · intro s b resp eof s2 h hb
    subst hb
    have := hgrow 19 s [] [] resp eof s2 h
    simp at this
  · intro fuel s s2 reports b resp eof h hresp
    simp only [handlerBatchLoop]
    rw [h]
    simp [hresp]
  · intro fuel s s2 reports resp eof h hresp
    simp only [handlerBatchLoop]
    rw [h]
    simp [hresp]
  · intro hp
    have hread : NDJSONStreamReader.Read (DecodeJSONData parse) ([] : List Char) =
        ((none, some (GoErr.msg "data read error: EOF")), []) := by
      simp [NDJSONStreamReader.Read, readBytesNewline, DecodeJSONData, hp, GoErr.errString]
    have hstep : ∀ (n : Nat) (acc : List (Option T)),
        readBatchLoop models (DecodeJSONData parse) (n + 1) [] acc =
          ((none, cannotDecodeResponse "data read error: EOF", false), []) := by
      intro n acc
      simp only [readBatchLoop]
      rw [hread]
    exact hstep 19 []

/-- Witness for C4 at concrete streams: a partial one-document batch (final
line unterminated) is non-empty and gets submitted with a 202, while reading
at the exhausted stream (end-of-stream at a batch boundary) yields the nil
slice with the wrapped decode error, so nothing is submitted there. -/
theorem batch_submitted_only_if_nonempty_witness :
    ¬ ([some 0] : List (Option Nat)) = [] ∧
    handlerBatchLoop (Models extTest) decTest 1 ("t".toList) [] =
      some (acceptedResponse, [[some 0]]) ∧
    readBatch (Models extTest) decTest batchSize ([] : List Char) =
      ((none, cannotDecodeResponse "data read error: EOF", false), []) :=
  ⟨(batch_submitted_only_if_nonempty (Models extTest) jsonParseTest).2.1
      ("t".toList) [some 0] serverResponse.zero true [] rfl,
   (batch_submitted_only_if_nonempty (Models extTest) jsonParseTest).2.2.1
      0 ("t".toList) [] [] [some 0] serverResponse.zero true rfl rfl,
   (batch_submitted_only_if_nonempty (Models extTest) jsonParseTest).2.2.2.2 rfl⟩

/-- Claim C5 is false in its last clause, at a concrete document: for a raw
document with no recognized record-type key the dispatcher's validation
failure message is "did not recognize object type", not
"unrecognized object type" as the claim states. -/
theorem unrecognized_message_cex :
    handleRawModel (Models extTest) [("bogus", 7)] =
      (none, cannotValidateResponse "did not recognize object type") ∧
    (cannotValidateResponse "did not recognize object type").err =
      some "data validation error: did not recognize object type" ∧
    ¬ ("did not recognize object type" = "unrecognized object type") := by
  exact ⟨rfl, rfl, by decide⟩

/-- Claim C5 amended: for the first `Models` entry whose key is present in the
raw document, the value is validated against that entry's schema before its
decoder is consulted — on schema failure the result is the validation-kind
error, independent of the decoder; on decode failure the decode-kind error;
the two kinds are distinct (distinct monitoring counters); and a document with
no recognized key is a validation failure whose message is
"did not recognize object type". -/
theorem dispatcher_validate_then_decode {V T : Type} :
    (∀ (pre post : List (ModelEntry V T)) (m : ModelEntry V T) (doc : RawDoc V) (v : V),
      (∀ m2 ∈ pre, lookupKey doc m2.key = none) →
      lookupKey doc m.key = some v →
      (∀ e : String, m.schema v = some e →
        handleRawModel (pre ++ m :: post) doc = (none, cannotValidateResponse e)) ∧
      (∀ (tr : Option T) (e : String), m.schema v = none → m.modelDecoder v = (tr, some e) →
        handleRawModel (pre ++ m :: post) doc = (tr, cannotDecodeResponse e)) ∧
      (∀ tr : Option T, m.schema v = none → m.modelDecoder v = (tr, none) →
        handleRawModel (pre ++ m :: post) doc = (tr, serverResponse.zero))) ∧
    (∀ (models : List (ModelEntry V T)) (doc : RawDoc V),
      (∀ m2 ∈ models, lookupKey doc m2.key = none) →
      handleRawModel models doc =
        (none, cannotValidateResponse "did not recognize object type")) ∧
    (∀ e1 e2 : String,
      ¬ (cannotValidateResponse e1).counter = (cannotDecodeResponse e2).counter ∧
      (cannotValidateResponse e1).IsError = true ∧ (cannotDecodeResponse e2).IsError = true) := by
  refine ⟨?_, ?_, ?_⟩
  · intro pre post m doc v hpre hkey
    rw [handleRawModel_skip pre (m :: post) doc hpre]
    refine ⟨?_, ?_, ?_⟩
    · intro e he
      simp [handleRawModel, hkey, he]
    · intro tr e hs hd
      simp [handleRawModel, hkey, hs, hd]
    · intro tr hs hd
      simp [handleRawModel, hkey, hs, hd]
  · intro models doc hnone
    have := handleRawModel_skip models [] doc hnone
    rw [List.append_nil] at this
    rw [this]
    rfl
  · intro e1 e2
    exact ⟨by simp [cannotValidateResponse, cannotDecodeResponse], rfl, rfl⟩

/-- Witness for C5 (amended) on the source `Models` table with concrete
documents: a present "transaction" key failing its schema, and a document with
no recognized key. -/
theorem dispatcher_validate_then_decode_witness :
    handleRawModel (Models extTest) [("transaction", 5)] =
      (none, cannotValidateResponse "missing required field") ∧
    handleRawModel (Models extTest) [("nothing", 3)] =
      (none, cannotValidateResponse "did not recognize object type") :=
  ⟨((dispatcher_validate_then_decode.1 [] (Models extTest).tail
      ⟨"transaction", extTest.transactionSchema, extTest.transactionDecode⟩
      [("transaction", 5)] 5 (by intro m2 hm2; cases hm2) rfl).1
      "missing required field" rfl),
   dispatcher_validate_then_decode.2.1 (Models extTest) [("nothing", 3)] (by decide)⟩

set_option maxRecDepth 8000 in
/-- Claim C2: the aggregator operations preserve the invariant that every
error kind stores at most `validationErrorsLimit` = 5 sample documents, no
two of which share an error text; neither `AddError` nor `ValidationError`
changes (in particular, decreases) the accepted/invalid/dropped counts; and
ten documents failing with the same validation message from a fresh
`streamResponse` yield exactly one stored sample. -/
theorem stream_response_dedup_cap_and_monotone :
    (∀ (s : streamResponse) (errType : streamErrorType) (count : Int) (err doc : String),
      streamResponseWF s →
      streamResponseWF (s.AddError errType count) ∧
      streamResponseWF (s.ValidationError err doc) ∧
      (s.AddError errType count).Accepted = s.Accepted ∧
      (s.AddError errType count).Invalid = s.Invalid ∧
      (s.AddError errType count).Dropped = s.Dropped ∧
      (s.ValidationError err doc).Accepted = s.Accepted ∧
      (s.ValidationError err doc).Invalid = s.Invalid ∧
      (s.ValidationError err doc).Dropped = s.Dropped) ∧
    (∀ (s : streamResponse), streamResponseWF s →
      ∀ p ∈ s.Errors, (p.2.Documents.getD []).length ≤ 5 ∧
        ((p.2.Documents.getD []).map ValidationError.Error).Nodup) ∧
    (((List.replicate 10 (("same validation message", "doc") : String × String)).foldl
        (fun s p => s.ValidationError p.1 p.2) streamResponse.zero).Errors =
      [(schemaValidationErr,
        ⟨0, "validation error", some [⟨"same validation message", "doc"⟩],
         ["same validation message"]⟩)]) ∧
    validationErrorsLimit = 5 := by
  refine ⟨?_, ?_, rfl, rfl⟩
  · intro s errType count err doc h
    obtain ⟨a1, a2, a3⟩ := AddError_counts s errType count
    obtain ⟨v1, v2, v3⟩ := ValidationError_counts s err doc
    exact ⟨AddError_wf s errType count h, ValidationError_wf s err doc h,
      a1, a2, a3, v1, v2, v3⟩
  · intro s h p hp
    exact ⟨(h p hp).1, (h p hp).2.1⟩

/-- Witness for C2 at the fresh aggregator with concrete operations. -/
theorem stream_response_dedup_cap_and_monotone_witness :
    streamResponseWF (streamResponse.zero.ValidationError "boom" "{}") ∧
    streamResponseWF (streamResponse.zero.AddError queueFullErr 2) :=
  ⟨(stream_response_dedup_cap_and_monotone.1 streamResponse.zero queueFullErr 2 "boom" "{}"
      (fun p hp => absurd hp (List.not_mem_nil p))).2.1,
   (stream_response_dedup_cap_and_monotone.1 streamResponse.zero queueFullErr 2 "boom" "{}"
      (fun p hp => absurd hp (List.not_mem_nil p))).1⟩

end ApmServer
